import Mathlib

/-!
Verification of the host-metrics exporter (envirobly/host-metrics).

The development shallowly embeds the metric-collection loop of the Go
source (`main.go` and the unnamed variants, of which `src/unnamed/part_001`
is the richest: one `CollectMetrics` loop sampling RAM, CPU, swap, network,
filesystem and ZFS-pool data and publishing into a Prometheus registry).

Floating-point values (`float64`) are modelled as rationals; machine
counters (`uint64`) as naturals. Every OS query or external command that
can fail is modelled as an `Option`-valued input to one collection cycle.
-/

/-! ## String helpers mirroring the Go standard library -/

/-- Whitespace as recognised by Go `unicode.IsSpace` on the ASCII range,
which is the alphabet of `zpool list` output. -/
def isGoSpace (c : Char) : Bool :=
  c = ' ' || c = '\t' || c = '\n' || c = '\x0b' || c = '\x0c' || c = '\r'

/-- Accumulator-based splitting of a character list into maximal runs of
non-whitespace characters, as done by Go `strings.Fields`. -/
def fieldsAux : List Char → List Char → List (List Char)
  | [], acc => if acc.isEmpty then [] else [acc.reverse]
  | c :: cs, acc =>
    if isGoSpace c then
      if acc.isEmpty then fieldsAux cs [] else acc.reverse :: fieldsAux cs []
    else fieldsAux cs (c :: acc)

/-- Go `strings.Fields`: split around runs of whitespace, dropping empty fields. -/
def stringFields (s : String) : List String :=
  (fieldsAux s.data []).map String.mk

/-- Go `strings.TrimSuffix`: remove `suff` from the end of `s` when present,
otherwise return `s` unchanged. -/
def trimSuffix (s suff : String) : String :=
  if suff.data.isSuffixOf s.data then String.mk (s.data.take (s.data.length - suff.data.length))
  else s

/-- Go `strings.HasPrefix`. -/
def strStartsWith (s p : String) : Bool :=
  p.data.isPrefixOf s.data

/-- Splitting on newline characters, keeping the trailing (possibly empty)
segment; helper for `scanLines`. -/
def splitLinesAux : List Char → List Char → List (List Char)
  | [], acc => [acc.reverse]
  | c :: cs, acc =>
    if c = '\n' then acc.reverse :: splitLinesAux cs []
    else splitLinesAux cs (c :: acc)

/-- Go `bufio.ScanLines` strips one trailing carriage return from each line. -/
def dropCR (l : List Char) : List Char :=
  if l.getLast? = some '\r' then l.dropLast else l

/-- The token stream produced by a Go `bufio.Scanner` with the default
line splitter: lines without their terminators; a trailing newline does not
produce a final empty token, and empty input produces no token. -/
def scanLines (s : String) : List String :=
  let parts := splitLinesAux s.data []
  let parts2 :=
    match parts.getLast? with
    | some [] => parts.dropLast
    | _ => parts
  parts2.map (fun l => String.mk (dropCR l))

/-! ## `strconv.ParseFloat`, on the decimal syntax

`zpool list -H -o name,cap` emits capacity as decimal digits followed by
`%`, so the model covers Go's plain decimal floating-point syntax
(optional sign, digits with optional fraction, optional exponent).  The
special forms Go additionally accepts (hex mantissas, infinities, NaN,
digit-separating underscores) never occur in this program's inputs and are
not modelled; on the modelled syntax the model agrees with `ParseFloat`
up to the exactness of rational arithmetic. -/

/-- Numeric value of a decimal digit character, `none` on other characters. -/
def digitVal (c : Char) : Option Nat :=
  if c = '0' then some 0 else if c = '1' then some 1 else if c = '2' then some 2
  else if c = '3' then some 3 else if c = '4' then some 4 else if c = '5' then some 5
  else if c = '6' then some 6 else if c = '7' then some 7 else if c = '8' then some 8
  else if c = '9' then some 9 else none

/-- Decimal digit test. -/
def isDigitChar (c : Char) : Bool := (digitVal c).isSome

/-- Value of a digit string read most-significant first. -/
def digitsToNat (cs : List Char) : Nat :=
  cs.foldl (fun acc c => acc * 10 + ((digitVal c).getD 0)) 0

/-- Syntactic decomposition of a decimal floating-point literal:
sign, integer digits, fraction digits, exponent. -/
structure FloatRep where
  neg : Bool
  intDigits : List Char
  fracDigits : List Char
  exp : Int
deriving DecidableEq

/-- Split a character list at the first exponent marker. -/
def splitExp : List Char → List Char × Option (List Char)
  | [] => ([], none)
  | c :: cs =>
    if c = 'e' || c = 'E' then ([], some cs)
    else
      let r := splitExp cs
      (c :: r.1, r.2)

/-- Parse the exponent following the marker: optional sign, nonempty digits. -/
def parseExpPart (cs : List Char) : Option Int :=
  let sr : Bool × List Char :=
    match cs with
    | '+' :: r => (false, r)
    | '-' :: r => (true, r)
    | _ => (false, cs)
  if sr.2.isEmpty then none
  else if sr.2.all isDigitChar then
    some (if sr.1 then -(digitsToNat sr.2 : Int) else (digitsToNat sr.2 : Int))
  else none

/-- Parse the mantissa: digits, optionally a dot and fraction digits, with at
least one digit present overall. -/
def parseMantissa (cs : List Char) : Option (List Char × List Char) :=
  let intPart := cs.takeWhile isDigitChar
  let rest := cs.dropWhile isDigitChar
  match rest with
  | [] => if intPart.isEmpty then none else some (intPart, [])
  | '.' :: frac =>
    if frac.all isDigitChar && !(intPart.isEmpty && frac.isEmpty) then some (intPart, frac)
    else none
  | _ => none

/-- Parse a decimal floating-point literal into its syntactic parts. -/
def parseFloatRep (cs : List Char) : Option FloatRep :=
  let sr : Bool × List Char :=
    match cs with
    | '+' :: r => (false, r)
    | '-' :: r => (true, r)
    | _ => (false, cs)
  let me := splitExp sr.2
  match parseMantissa me.1 with
  | none => none
  | some (ip, fp) =>
    match me.2 with
    | none => some ⟨sr.1, ip, fp, 0⟩
    | some e =>
      match parseExpPart e with
      | none => none
      | some ex => some ⟨sr.1, ip, fp, ex⟩

/-- Exact rational value denoted by a decimal literal. -/
def repToRat (r : FloatRep) : ℚ :=
  (if r.neg then -1 else 1) *
    ((digitsToNat r.intDigits : ℚ) + (digitsToNat r.fracDigits : ℚ) / 10 ^ r.fracDigits.length) *
    10 ^ r.exp

/-- Go `strconv.ParseFloat` on the decimal syntax, with the error case as `none`. -/
def parseFloat (s : String) : Option ℚ :=
  (parseFloatRep s.data).map repToRat

/-! ## Rounding, mount-point exclusion, and interface filtering
(embedded from `roundToTwoDecimals`, `isExcludedMountPoint` and the
network-collection filter in `src/unnamed/part_001`) -/

/-- Go `math.Round`: nearest integer, rounding half away from zero. -/
def goMathRound (x : ℚ) : ℚ :=
  if 0 ≤ x then ((⌊x + 1/2⌋ : ℤ) : ℚ) else -((⌊-x + 1/2⌋ : ℤ) : ℚ)

/-- `roundToTwoDecimals` from the source: `math.Round(value*100) / 100`. -/
def roundToTwoDecimals (value : ℚ) : ℚ :=
  goMathRound (value * 100) / 100

/-- `isExcludedMountPoint` from `src/unnamed/part_001` / `part_002`. -/
def isExcludedMountPoint (mountpoint : String) : Bool :=
  strStartsWith mountpoint "/boot/efi" ||
  strStartsWith mountpoint "/var/envirobly/zpools" ||
  strStartsWith mountpoint "/var/lib/docker/volumes"

/-! ## Registry and cycle inputs -/

/-- One entry of the per-interface counter query (`gopsutil` `net.IOCounters`). -/
structure NetIOStat where
  name : String
  bytesSent : Nat
  bytesRecv : Nat
deriving DecidableEq

/-- One mounted partition (`gopsutil` `disk.Partitions`). -/
structure Partition where
  device : String
  mountpoint : String
deriving DecidableEq

/-- The Prometheus registry state owned by the process: the bare gauges and
the labelled gauge vectors of the `Metrics` struct, each labelled series
an association list keyed by its label values. -/
structure Registry where
  ram : Option ℚ
  cpu : Option ℚ
  swap : Option ℚ
  zfs : List (String × ℚ)
  fs : List ((String × String) × ℚ)
  netSent : List (String × ℚ)
  netRecv : List (String × ℚ)

/-- The registry before any collection cycle has run. -/
def emptyRegistry : Registry :=
  ⟨none, none, none, [], [], [], []⟩

/-- `GaugeVec.WithLabelValues(...).Set(v)`: replace the current value for a
label key, creating the series on first use. -/
def upsert {α : Type} [DecidableEq α] (k : α) (v : ℚ) : List (α × ℚ) → List (α × ℚ)
  | [] => [(k, v)]
  | e :: rest => if e.1 = k then (k, v) :: rest else e :: upsert k v rest

/-- Current value of a labelled series, `none` when never written. -/
def lookupQ {α : Type} [DecidableEq α] (k : α) : List (α × ℚ) → Option ℚ
  | [] => none
  | e :: rest => if e.1 = k then some e.2 else lookupQ k rest

/-- The outcome of every fallible query made during one iteration of
`CollectMetrics` (`src/unnamed/part_001`): `none` models the error return. -/
structure CycleInput where
  vmUsedPercent : Option ℚ
  cpuPercents : Option (List ℚ)
  swapUsedPercent : Option ℚ
  netIOStats : Option (List NetIOStat)
  partitions : Option (List Partition)
  diskUsage : String → Option ℚ
  zpoolOut : Option String

/-! ## The zpool output parser
(the scanner loop at the end of `CollectMetrics` in `src/unnamed/part_001`,
identical to `CollectZFSMetrics` in `main.go` / `part_002`) -/

/-- One scanner line: split into fields, require exactly two, strip an
optional `%` suffix from the capacity field and parse it. -/
def parseZpoolLine (line : String) : Option (String × ℚ) :=
  match stringFields line with
  | [poolName, capField] =>
    (parseFloat (trimSuffix capField "%")).map (fun v => (poolName, v))
  | _ => none

/-- The scanner loop over the lines of `zpool list -H -o name,cap` output:
lines with a wrong field count or an unparsable capacity are skipped and
the loop continues with the remaining lines. -/
def zpoolLoop : List String → List (String × ℚ)
  | [] => []
  | line :: rest =>
    match stringFields line with
    | [poolName, capField] =>
      match parseFloat (trimSuffix capField "%") with
      | some v => (poolName, v) :: zpoolLoop rest
      | none => zpoolLoop rest
    | _ => zpoolLoop rest

/-! ## One collection cycle
(the body of the `for` loop of `CollectMetrics` in `src/unnamed/part_001`,
block by block in source order) -/

/-- RAM block: on success set the gauge to the rounded used percentage,
on error only log. -/
def applyRam (vm : Option ℚ) (r : Registry) : Registry :=
  match vm with
  | none => r
  | some v => { r with ram := some (roundToTwoDecimals v) }

/-- CPU block: on success, set the gauge from the first element of the
returned list only when the list is nonempty. -/
def applyCpu (cps : Option (List ℚ)) (r : Registry) : Registry :=
  match cps with
  | none => r
  | some [] => r
  | some (p :: _) => { r with cpu := some (roundToTwoDecimals p) }

/-- Swap block. -/
def applySwap (sw : Option ℚ) (r : Registry) : Registry :=
  match sw with
  | none => r
  | some v => { r with swap := some (roundToTwoDecimals v) }

/-- Body of the network loop: publish both byte counters, unrounded, for
interfaces whose name starts with `ens`; skip all others. -/
def netStep (r : Registry) (stat : NetIOStat) : Registry :=
  if strStartsWith stat.name "ens" then
    { r with netSent := upsert stat.name ((stat.bytesSent : ℚ)) r.netSent,
             netRecv := upsert stat.name ((stat.bytesRecv : ℚ)) r.netRecv }
  else r

/-- Network block. -/
def applyNet (stats : Option (List NetIOStat)) (r : Registry) : Registry :=
  match stats with
  | none => r
  | some l => l.foldl netStep r

/-- Body of the filesystem loop: skip excluded mount points, skip mount
points whose usage query fails, otherwise publish the rounded percentage. -/
def fsStep (usage : String → Option ℚ) (r : Registry) (p : Partition) : Registry :=
  if isExcludedMountPoint p.mountpoint then r
  else
    match usage p.mountpoint with
    | none => r
    | some u => { r with fs := upsert (p.device, p.mountpoint) (roundToTwoDecimals u) r.fs }

/-- Filesystem block. -/
def applyFS (parts : Option (List Partition)) (usage : String → Option ℚ) (r : Registry) :
    Registry :=
  match parts with
  | none => r
  | some l => l.foldl (fsStep usage) r

/-- Body of the zpool publication: set the pool gauge to the rounded capacity. -/
def zfsStep (r : Registry) (e : String × ℚ) : Registry :=
  { r with zfs := upsert e.1 (roundToTwoDecimals e.2) r.zfs }

/-- ZFS block: on command success, parse the output lines and publish each. -/
def applyZfs (za : Option String) (r : Registry) : Registry :=
  match za with
  | none => r
  | some s => (zpoolLoop (scanLines s)).foldl zfsStep r

/-- One full iteration of `CollectMetrics` (`src/unnamed/part_001`), the
six blocks in source order. -/
def collectCycle (inp : CycleInput) (r : Registry) : Registry :=
  applyZfs inp.zpoolOut
    (applyFS inp.partitions inp.diskUsage
      (applyNet inp.netIOStats
        (applySwap inp.swapUsedPercent
          (applyCpu inp.cpuPercents
            (applyRam inp.vmUsedPercent r)))))

/-- Iterated collection cycles, oldest first. -/
def runCycles (inps : List CycleInput) (r : Registry) : Registry :=
  inps.foldl (fun acc i => collectCycle i acc) r

/-! ## The log stream of one cycle -/

/-- The `log.Printf` calls reachable in one iteration of `CollectMetrics`. -/
inductive LogTag where
  | ramErr
  | cpuErr
  | swapErr
  | netErr
  | partitionsErr
  | fsUsageErr (mountpoint : String)
  | zpoolCmdErr
  | zpoolParseErr (pool : String)
deriving DecidableEq

/-- Per-mount error logs of the filesystem loop. -/
def fsLogs (usage : String → Option ℚ) : List Partition → List LogTag
  | [] => []
  | p :: rest =>
    if isExcludedMountPoint p.mountpoint then fsLogs usage rest
    else
      match usage p.mountpoint with
      | none => LogTag.fsUsageErr p.mountpoint :: fsLogs usage rest
      | some _ => fsLogs usage rest

/-- Per-line parse-error logs of the zpool scanner loop. -/
def zpoolLogs : List String → List LogTag
  | [] => []
  | line :: rest =>
    match stringFields line with
    | [poolName, capField] =>
      match parseFloat (trimSuffix capField "%") with
      | some _ => zpoolLogs rest
      | none => LogTag.zpoolParseErr poolName :: zpoolLogs rest
    | _ => zpoolLogs rest

/-- All log lines emitted by one iteration of `CollectMetrics`, in source
order.  A successful CPU query returning an empty list logs nothing. -/
def cycleLogs (inp : CycleInput) : List LogTag :=
  (match inp.vmUsedPercent with | none => [LogTag.ramErr] | some _ => []) ++
  (match inp.cpuPercents with | none => [LogTag.cpuErr] | some _ => []) ++
  (match inp.swapUsedPercent with | none => [LogTag.swapErr] | some _ => []) ++
  (match inp.netIOStats with | none => [LogTag.netErr] | some _ => []) ++
  (match inp.partitions with
   | none => [LogTag.partitionsErr]
   | some l => fsLogs inp.diskUsage l) ++
  (match inp.zpoolOut with
   | none => [LogTag.zpoolCmdErr]
   | some s => zpoolLogs (scanLines s))

/-! ## Loop-control and process-exit models -/

/-- One iteration of `CollectZFSMetrics` (`src/main.go` lines 61-96, and
`src/unnamed/part_002`): the Boolean records whether the iteration reached
the `time.Sleep` call.  On command error the `continue` statement jumps to
the next iteration before the sleep. -/
def collectZFSIter (cmdOut : Option String) (zfs : List (String × ℚ)) :
    List (String × ℚ) × Bool :=
  match cmdOut with
  | none => (zfs, false)
  | some out =>
    ((zpoolLoop (scanLines out)).foldl
      (fun m e => upsert e.1 (roundToTwoDecimals e.2) m) zfs, true)

/-- One iteration of `CollectMetrics` (`src/unnamed/part_001`): every
control path of the loop body falls through to the final `time.Sleep`, so
the sleep flag is true on all inputs. -/
def collectMetricsIter (inp : CycleInput) (r : Registry) : Registry × Bool :=
  (collectCycle inp r, true)

/-- What an iteration of a collection loop does to the process: it either
continues with an updated registry or exits with a status code. -/
inductive StepResult where
  | continues (r : Registry)
  | exits (code : Nat)

/-- One iteration of the collection loop as a process step: no branch of
the loop body calls `os.Exit`, `log.Fatal` or panics, so every input
continues. -/
def collectIter (inp : CycleInput) (r : Registry) : StepResult :=
  StepResult.continues (collectCycle inp r)

/-- Process startup (`main`): `log.Fatal(http.ListenAndServe(...))`
terminates the process with exit status 1 when the listener fails, and
never returns otherwise. -/
def mainStartup (listenOk : Bool) : Option Nat :=
  if listenOk then none else some 1

/-! ## Association-list lemmas -/

theorem lookupQ_upsert_self {α : Type} [DecidableEq α] (k : α) (v : ℚ) (l : List (α × ℚ)) :
    lookupQ k (upsert k v l) = some v := by
  induction l with
  | nil => simp [upsert, lookupQ]
  | cons e rest ih =>
    by_cases h : e.1 = k
    · simp [upsert, lookupQ, h]
    · simp [upsert, lookupQ, h, ih]

theorem lookupQ_upsert_ne {α : Type} [DecidableEq α] {k q : α} (hne : q ≠ k) (v : ℚ)
    (l : List (α × ℚ)) : lookupQ q (upsert k v l) = lookupQ q l := by
  induction l with
  | nil => simp [upsert, lookupQ, Ne.symm hne]
  | cons e rest ih =>
    by_cases h : e.1 = k
    · simp [upsert, lookupQ, h, Ne.symm hne]
    · simp [upsert, lookupQ, h, ih]

theorem lookupQ_upsert_isSome {α : Type} [DecidableEq α] (k q : α) (v : ℚ) (l : List (α × ℚ))
    (h : (lookupQ q l).isSome = true) : (lookupQ q (upsert k v l)).isSome = true := by
  by_cases hk : q = k
  · subst hk; rw [lookupQ_upsert_self]; rfl
  · rw [lookupQ_upsert_ne hk]; exact h

/-! ## Which registry fields each block leaves untouched -/

theorem applyRam_cpu (vm : Option ℚ) (r : Registry) : (applyRam vm r).cpu = r.cpu := by
  cases vm <;> rfl

theorem applyRam_swap (vm : Option ℚ) (r : Registry) : (applyRam vm r).swap = r.swap := by
  cases vm <;> rfl

theorem applyRam_fs (vm : Option ℚ) (r : Registry) : (applyRam vm r).fs = r.fs := by
  cases vm <;> rfl

theorem applyRam_zfs (vm : Option ℚ) (r : Registry) : (applyRam vm r).zfs = r.zfs := by
  cases vm <;> rfl

theorem applyRam_netSent (vm : Option ℚ) (r : Registry) :
    (applyRam vm r).netSent = r.netSent := by
  cases vm <;> rfl

theorem applyRam_netRecv (vm : Option ℚ) (r : Registry) :
    (applyRam vm r).netRecv = r.netRecv := by
  cases vm <;> rfl

theorem applyCpu_ram (cps : Option (List ℚ)) (r : Registry) : (applyCpu cps r).ram = r.ram := by
  cases cps with
  | none => rfl
  | some l => cases l <;> rfl

theorem applyCpu_swap (cps : Option (List ℚ)) (r : Registry) :
    (applyCpu cps r).swap = r.swap := by
  cases cps with
  | none => rfl
  | some l => cases l <;> rfl

theorem applyCpu_fs (cps : Option (List ℚ)) (r : Registry) : (applyCpu cps r).fs = r.fs := by
  cases cps with
  | none => rfl
  | some l => cases l <;> rfl

theorem applyCpu_zfs (cps : Option (List ℚ)) (r : Registry) : (applyCpu cps r).zfs = r.zfs := by
  cases cps with
  | none => rfl
  | some l => cases l <;> rfl

theorem applyCpu_netSent (cps : Option (List ℚ)) (r : Registry) :
    (applyCpu cps r).netSent = r.netSent := by
  cases cps with
  | none => rfl
  | some l => cases l <;> rfl

theorem applyCpu_netRecv (cps : Option (List ℚ)) (r : Registry) :
    (applyCpu cps r).netRecv = r.netRecv := by
  cases cps with
  | none => rfl
  | some l => cases l <;> rfl

theorem applySwap_ram (sw : Option ℚ) (r : Registry) : (applySwap sw r).ram = r.ram := by
  cases sw <;> rfl

theorem applySwap_cpu (sw : Option ℚ) (r : Registry) : (applySwap sw r).cpu = r.cpu := by
  cases sw <;> rfl

theorem applySwap_fs (sw : Option ℚ) (r : Registry) : (applySwap sw r).fs = r.fs := by
  cases sw <;> rfl

theorem applySwap_zfs (sw : Option ℚ) (r : Registry) : (applySwap sw r).zfs = r.zfs := by
  cases sw <;> rfl

theorem applySwap_netSent (sw : Option ℚ) (r : Registry) :
    (applySwap sw r).netSent = r.netSent := by
  cases sw <;> rfl

theorem applySwap_netRecv (sw : Option ℚ) (r : Registry) :
    (applySwap sw r).netRecv = r.netRecv := by
  cases sw <;> rfl

theorem netStep_keeps (r : Registry) (s : NetIOStat) :
    (netStep r s).ram = r.ram ∧ (netStep r s).cpu = r.cpu ∧ (netStep r s).swap = r.swap ∧
    (netStep r s).fs = r.fs ∧ (netStep r s).zfs = r.zfs := by
  unfold netStep; split <;> exact ⟨rfl, rfl, rfl, rfl, rfl⟩

theorem netFold_keeps (l : List NetIOStat) : ∀ r : Registry,
    (l.foldl netStep r).ram = r.ram ∧ (l.foldl netStep r).cpu = r.cpu ∧
    (l.foldl netStep r).swap = r.swap ∧ (l.foldl netStep r).fs = r.fs ∧
    (l.foldl netStep r).zfs = r.zfs := by
  induction l with
  | nil => intro r; exact ⟨rfl, rfl, rfl, rfl, rfl⟩
  | cons s t ih =>
    intro r
    have h1 := netStep_keeps r s
    have h2 := ih (netStep r s)
    simp only [List.foldl_cons]
    exact ⟨h2.1.trans h1.1, h2.2.1.trans h1.2.1, h2.2.2.1.trans h1.2.2.1,
      h2.2.2.2.1.trans h1.2.2.2.1, h2.2.2.2.2.trans h1.2.2.2.2⟩

theorem applyNet_ram (st : Option (List NetIOStat)) (r : Registry) :
    (applyNet st r).ram = r.ram := by
  cases st with
  | none => rfl
  | some l => exact (netFold_keeps l r).1

theorem applyNet_cpu (st : Option (List NetIOStat)) (r : Registry) :
    (applyNet st r).cpu = r.cpu := by
  cases st with
  | none => rfl
  | some l => exact (netFold_keeps l r).2.1

theorem applyNet_swap (st : Option (List NetIOStat)) (r : Registry) :
    (applyNet st r).swap = r.swap := by
  cases st with
  | none => rfl
  | some l => exact (netFold_keeps l r).2.2.1

theorem applyNet_fs (st : Option (List NetIOStat)) (r : Registry) :
    (applyNet st r).fs = r.fs := by
  cases st with
  | none => rfl
  | some l => exact (netFold_keeps l r).2.2.2.1

theorem applyNet_zfs (st : Option (List NetIOStat)) (r : Registry) :
    (applyNet st r).zfs = r.zfs := by
  cases st with
  | none => rfl
  | some l => exact (netFold_keeps l r).2.2.2.2

theorem fsStep_keeps (u : String → Option ℚ) (r : Registry) (p : Partition) :
    (fsStep u r p).ram = r.ram ∧ (fsStep u r p).cpu = r.cpu ∧ (fsStep u r p).swap = r.swap ∧
    (fsStep u r p).zfs = r.zfs ∧ (fsStep u r p).netSent = r.netSent ∧
    (fsStep u r p).netRecv = r.netRecv := by
  unfold fsStep
  split
  · exact ⟨rfl, rfl, rfl, rfl, rfl, rfl⟩
  · split <;> exact ⟨rfl, rfl, rfl, rfl, rfl, rfl⟩

theorem fsFold_keeps (u : String → Option ℚ) (l : List Partition) : ∀ r : Registry,
    (l.foldl (fsStep u) r).ram = r.ram ∧ (l.foldl (fsStep u) r).cpu = r.cpu ∧
    (l.foldl (fsStep u) r).swap = r.swap ∧ (l.foldl (fsStep u) r).zfs = r.zfs ∧
    (l.foldl (fsStep u) r).netSent = r.netSent ∧
    (l.foldl (fsStep u) r).netRecv = r.netRecv := by
  induction l with
  | nil => intro r; exact ⟨rfl, rfl, rfl, rfl, rfl, rfl⟩
  | cons p t ih =>
    intro r
    have h1 := fsStep_keeps u r p
    have h2 := ih (fsStep u r p)
    simp only [List.foldl_cons]
    exact ⟨h2.1.trans h1.1, h2.2.1.trans h1.2.1, h2.2.2.1.trans h1.2.2.1,
      h2.2.2.2.1.trans h1.2.2.2.1, h2.2.2.2.2.1.trans h1.2.2.2.2.1,
      h2.2.2.2.2.2.trans h1.2.2.2.2.2⟩

theorem applyFS_ram (pt : Option (List Partition)) (u : String → Option ℚ) (r : Registry) :
    (applyFS pt u r).ram = r.ram := by
  cases pt with
  | none => rfl
  | some l => exact (fsFold_keeps u l r).1

theorem applyFS_cpu (pt : Option (List Partition)) (u : String → Option ℚ) (r : Registry) :
    (applyFS pt u r).cpu = r.cpu := by
  cases pt with
  | none => rfl
  | some l => exact (fsFold_keeps u l r).2.1

theorem applyFS_swap (pt : Option (List Partition)) (u : String → Option ℚ) (r : Registry) :
    (applyFS pt u r).swap = r.swap := by
  cases pt with
  | none => rfl
  | some l => exact (fsFold_keeps u l r).2.2.1

theorem applyFS_zfs (pt : Option (List Partition)) (u : String → Option ℚ) (r : Registry) :
    (applyFS pt u r).zfs = r.zfs := by
  cases pt with
  | none => rfl
  | some l => exact (fsFold_keeps u l r).2.2.2.1

theorem applyFS_netSent (pt : Option (List Partition)) (u : String → Option ℚ) (r : Registry) :
    (applyFS pt u r).netSent = r.netSent := by
  cases pt with
  | none => rfl
  | some l => exact (fsFold_keeps u l r).2.2.2.2.1

theorem applyFS_netRecv (pt : Option (List Partition)) (u : String → Option ℚ) (r : Registry) :
    (applyFS pt u r).netRecv = r.netRecv := by
  cases pt with
  | none => rfl
  | some l => exact (fsFold_keeps u l r).2.2.2.2.2

theorem zfsFold_keeps (l : List (String × ℚ)) : ∀ r : Registry,
    (l.foldl zfsStep r).ram = r.ram ∧ (l.foldl zfsStep r).cpu = r.cpu ∧
    (l.foldl zfsStep r).swap = r.swap ∧ (l.foldl zfsStep r).fs = r.fs ∧
    (l.foldl zfsStep r).netSent = r.netSent ∧ (l.foldl zfsStep r).netRecv = r.netRecv := by
  induction l with
  | nil => intro r; exact ⟨rfl, rfl, rfl, rfl, rfl, rfl⟩
  | cons e t ih =>
    intro r
    have h2 := ih (zfsStep r e)
    simp only [List.foldl_cons]
    exact ⟨h2.1, h2.2.1, h2.2.2.1, h2.2.2.2.1, h2.2.2.2.2.1, h2.2.2.2.2.2⟩

theorem applyZfs_ram (za : Option String) (r : Registry) : (applyZfs za r).ram = r.ram := by
  cases za with
  | none => rfl
  | some s => exact (zfsFold_keeps (zpoolLoop (scanLines s)) r).1

theorem applyZfs_cpu (za : Option String) (r : Registry) : (applyZfs za r).cpu = r.cpu := by
  cases za with
  | none => rfl
  | some s => exact (zfsFold_keeps (zpoolLoop (scanLines s)) r).2.1

theorem applyZfs_swap (za : Option String) (r : Registry) : (applyZfs za r).swap = r.swap := by
  cases za with
  | none => rfl
  | some s => exact (zfsFold_keeps (zpoolLoop (scanLines s)) r).2.2.1

theorem applyZfs_fs (za : Option String) (r : Registry) : (applyZfs za r).fs = r.fs := by
  cases za with
  | none => rfl
  | some s => exact (zfsFold_keeps (zpoolLoop (scanLines s)) r).2.2.2.1

theorem applyZfs_netSent (za : Option String) (r : Registry) :
    (applyZfs za r).netSent = r.netSent := by
  cases za with
  | none => rfl
  | some s => exact (zfsFold_keeps (zpoolLoop (scanLines s)) r).2.2.2.2.1

theorem applyZfs_netRecv (za : Option String) (r : Registry) :
    (applyZfs za r).netRecv = r.netRecv := by
  cases za with
  | none => rfl
  | some s => exact (zfsFold_keeps (zpoolLoop (scanLines s)) r).2.2.2.2.2

/-! ## How each gauge is produced by a full cycle -/

theorem collectCycle_ram (inp : CycleInput) (r : Registry) :
    (collectCycle inp r).ram = (applyRam inp.vmUsedPercent r).ram := by
  unfold collectCycle
  rw [applyZfs_ram, applyFS_ram, applyNet_ram, applySwap_ram, applyCpu_ram]

theorem collectCycle_cpu (inp : CycleInput) (r : Registry) :
    (collectCycle inp r).cpu =
      (applyCpu inp.cpuPercents (applyRam inp.vmUsedPercent r)).cpu := by
  unfold collectCycle
  rw [applyZfs_cpu, applyFS_cpu, applyNet_cpu, applySwap_cpu]

theorem collectCycle_swap (inp : CycleInput) (r : Registry) :
    (collectCycle inp r).swap =
      (applySwap inp.swapUsedPercent
        (applyCpu inp.cpuPercents (applyRam inp.vmUsedPercent r))).swap := by
  unfold collectCycle
  rw [applyZfs_swap, applyFS_swap, applyNet_swap]

theorem collectCycle_netSent (inp : CycleInput) (r : Registry) :
    (collectCycle inp r).netSent =
      (applyNet inp.netIOStats
        (applySwap inp.swapUsedPercent
          (applyCpu inp.cpuPercents (applyRam inp.vmUsedPercent r)))).netSent := by
  unfold collectCycle
  rw [applyZfs_netSent, applyFS_netSent]

theorem collectCycle_netRecv (inp : CycleInput) (r : Registry) :
    (collectCycle inp r).netRecv =
      (applyNet inp.netIOStats
        (applySwap inp.swapUsedPercent
          (applyCpu inp.cpuPercents (applyRam inp.vmUsedPercent r)))).netRecv := by
  unfold collectCycle
  rw [applyZfs_netRecv, applyFS_netRecv]

theorem collectCycle_fs (inp : CycleInput) (r : Registry) :
    (collectCycle inp r).fs =
      (applyFS inp.partitions inp.diskUsage
        (applyNet inp.netIOStats
          (applySwap inp.swapUsedPercent
            (applyCpu inp.cpuPercents (applyRam inp.vmUsedPercent r))))).fs := by
  unfold collectCycle
  rw [applyZfs_fs]

/-- The registry reaching the network block has the same net maps as the
cycle's initial registry. -/
theorem preNet_netMaps (inp : CycleInput) (r : Registry) :
    (applySwap inp.swapUsedPercent
      (applyCpu inp.cpuPercents (applyRam inp.vmUsedPercent r))).netSent = r.netSent ∧
    (applySwap inp.swapUsedPercent
      (applyCpu inp.cpuPercents (applyRam inp.vmUsedPercent r))).netRecv = r.netRecv := by
  constructor
  · rw [applySwap_netSent, applyCpu_netSent, applyRam_netSent]
  · rw [applySwap_netRecv, applyCpu_netRecv, applyRam_netRecv]

/-- The registry reaching the filesystem block has the same fs map as the
cycle's initial registry. -/
theorem preFS_fs (inp : CycleInput) (r : Registry) :
    (applyNet inp.netIOStats
      (applySwap inp.swapUsedPercent
        (applyCpu inp.cpuPercents (applyRam inp.vmUsedPercent r)))).fs = r.fs := by
  rw [applyNet_fs, applySwap_fs, applyCpu_fs, applyRam_fs]

/-! ## Lookup behaviour of the network fold -/

theorem netFold_lookup_not_ens {name : String} (hn : strStartsWith name "ens" = false)
    (l : List NetIOStat) : ∀ r : Registry,
      lookupQ name (l.foldl netStep r).netSent = lookupQ name r.netSent ∧
      lookupQ name (l.foldl netStep r).netRecv = lookupQ name r.netRecv := by
  induction l with
  | nil => intro r; exact ⟨rfl, rfl⟩
  | cons s t ih =>
    intro r
    have hstep : lookupQ name (netStep r s).netSent = lookupQ name r.netSent ∧
        lookupQ name (netStep r s).netRecv = lookupQ name r.netRecv := by
      cases h : strStartsWith s.name "ens" with
      | false => simp [netStep, h]
      | true =>
        have hne : name ≠ s.name := by
          intro he; rw [he, h] at hn; simp at hn
        simp [netStep, h, lookupQ_upsert_ne hne]
    have h2 := ih (netStep r s)
    simp only [List.foldl_cons]
    exact ⟨h2.1.trans hstep.1, h2.2.trans hstep.2⟩

theorem netFold_isSome_mono (k : String) (l : List NetIOStat) : ∀ r : Registry,
    ((lookupQ k r.netSent).isSome = true →
      (lookupQ k (l.foldl netStep r).netSent).isSome = true) ∧
    ((lookupQ k r.netRecv).isSome = true →
      (lookupQ k (l.foldl netStep r).netRecv).isSome = true) := by
  induction l with
  | nil => intro r; exact ⟨id, id⟩
  | cons s t ih =>
    intro r
    have h2 := ih (netStep r s)
    simp only [List.foldl_cons]
    constructor
    · intro h
      apply h2.1
      cases hp : strStartsWith s.name "ens" with
      | false => simpa [netStep, hp] using h
      | true =>
        simp only [netStep, hp, if_true]
        exact lookupQ_upsert_isSome _ _ _ _ h
    · intro h
      apply h2.2
      cases hp : strStartsWith s.name "ens" with
      | false => simpa [netStep, hp] using h
      | true =>
        simp only [netStep, hp, if_true]
        exact lookupQ_upsert_isSome _ _ _ _ h

theorem netFold_mem_isSome (l : List NetIOStat) : ∀ (r : Registry) (stat : NetIOStat),
    stat ∈ l → strStartsWith stat.name "ens" = true →
    (lookupQ stat.name (l.foldl netStep r).netSent).isSome = true ∧
    (lookupQ stat.name (l.foldl netStep r).netRecv).isSome = true := by
  induction l with
  | nil => intro r stat h; cases h
  | cons s t ih =>
    intro r stat hmem hp
    simp only [List.foldl_cons]
    rcases List.mem_cons.mp hmem with he | ht
    · subst he
      have hsent : (lookupQ stat.name (netStep r stat).netSent).isSome = true := by
        simp [netStep, hp, lookupQ_upsert_self]
      have hrecv : (lookupQ stat.name (netStep r stat).netRecv).isSome = true := by
        simp [netStep, hp, lookupQ_upsert_self]
      exact ⟨(netFold_isSome_mono stat.name t (netStep r stat)).1 hsent,
             (netFold_isSome_mono stat.name t (netStep r stat)).2 hrecv⟩
    · exact ih (netStep r s) stat ht hp

theorem netFold_unique_val (l : List NetIOStat) : ∀ (r : Registry) (stat : NetIOStat),
    strStartsWith stat.name "ens" = true →
    (∀ s₂ ∈ l, s₂.name = stat.name → s₂ = stat) →
    (stat ∈ l ∨ (lookupQ stat.name r.netSent = some ((stat.bytesSent : ℚ)) ∧
                 lookupQ stat.name r.netRecv = some ((stat.bytesRecv : ℚ)))) →
    lookupQ stat.name (l.foldl netStep r).netSent = some ((stat.bytesSent : ℚ)) ∧
    lookupQ stat.name (l.foldl netStep r).netRecv = some ((stat.bytesRecv : ℚ)) := by
  induction l with
  | nil =>
    intro r stat _ _ hcase
    rcases hcase with h | h
    · cases h
    · exact h
  | cons s t ih =>
    intro r stat hp huniq hcase
    simp only [List.foldl_cons]
    have huniq2 : ∀ s₂ ∈ t, s₂.name = stat.name → s₂ = stat :=
      fun s₂ hm he => huniq s₂ (List.mem_cons_of_mem s hm) he
    by_cases hname : s.name = stat.name
    · have hs : s = stat := huniq s (List.mem_cons_self s t) hname
      subst hs
      have hsent : lookupQ s.name (netStep r s).netSent = some ((s.bytesSent : ℚ)) := by
        simp [netStep, hp, lookupQ_upsert_self]
      have hrecv : lookupQ s.name (netStep r s).netRecv = some ((s.bytesRecv : ℚ)) := by
        simp [netStep, hp, lookupQ_upsert_self]
      exact ih (netStep r s) s hp huniq2 (Or.inr ⟨hsent, hrecv⟩)
    · have hstep : lookupQ stat.name (netStep r s).netSent = lookupQ stat.name r.netSent ∧
          lookupQ stat.name (netStep r s).netRecv = lookupQ stat.name r.netRecv := by
        cases hps : strStartsWith s.name "ens" with
        | false => simp [netStep, hps]
        | true =>
          have hne : stat.name ≠ s.name := fun he => hname he.symm
          simp [netStep, hps, lookupQ_upsert_ne hne]
      rcases hcase with hm | hval
      · rcases List.mem_cons.mp hm with he | ht
        · exact absurd (congrArg NetIOStat.name he).symm hname
        · exact ih (netStep r s) stat hp huniq2 (Or.inl ht)
      · exact ih (netStep r s) stat hp huniq2
          (Or.inr ⟨hstep.1.trans hval.1, hstep.2.trans hval.2⟩)

/-! ## Lookup behaviour of the filesystem fold -/

theorem fsFold_lookup_skip (u : String → Option ℚ) (d mp : String)
    (hcond : isExcludedMountPoint mp = true ∨ u mp = none) (l : List Partition) :
    ∀ r : Registry,
      lookupQ (d, mp) (l.foldl (fsStep u) r).fs = lookupQ (d, mp) r.fs := by
  induction l with
  | nil => intro r; rfl
  | cons p t ih =>
    intro r
    simp only [List.foldl_cons]
    refine (ih (fsStep u r p)).trans ?_
    cases hex : isExcludedMountPoint p.mountpoint with
    | true => simp [fsStep, hex]
    | false =>
      cases hu : u p.mountpoint with
      | none => simp [fsStep, hex, hu]
      | some v =>
        have hne : (d, mp) ≠ (p.device, p.mountpoint) := by
          intro he
          have hmp : mp = p.mountpoint := congrArg Prod.snd he
          rcases hcond with hc | hc
          · rw [hmp] at hc; rw [hc] at hex; simp at hex
          · rw [hmp] at hc; rw [hc] at hu; simp at hu
        simp [fsStep, hex, hu, lookupQ_upsert_ne hne]

/-! ## Rounding lemmas -/

theorem roundToTwoDecimals_eq_of_floor (x : ℚ) (n : ℤ) (h0 : 0 ≤ x)
    (hf : ⌊x * 100 + 1/2⌋ = n) : roundToTwoDecimals x = (n : ℚ) / 100 := by
  unfold roundToTwoDecimals goMathRound
  rw [if_pos (by linarith : (0:ℚ) ≤ x * 100), hf]

theorem roundToTwoDecimals_eq_round (x : ℚ) (h0 : 0 ≤ x) :
    roundToTwoDecimals x = ((round (x * 100) : ℤ) : ℚ) / 100 := by
  unfold roundToTwoDecimals goMathRound
  rw [if_pos (by linarith : (0:ℚ) ≤ x * 100), round_eq]

theorem roundToTwoDecimals_nonneg (x : ℚ) (h0 : 0 ≤ x) : 0 ≤ roundToTwoDecimals x := by
  unfold roundToTwoDecimals goMathRound
  rw [if_pos (by linarith : (0:ℚ) ≤ x * 100)]
  have h1 : (0 : ℤ) ≤ ⌊x * 100 + 1/2⌋ := Int.floor_nonneg.mpr (by linarith)
  have h2 : (0 : ℚ) ≤ ((⌊x * 100 + 1/2⌋ : ℤ) : ℚ) := by exact_mod_cast h1
  exact div_nonneg h2 (by norm_num)

theorem roundToTwoDecimals_le_100 (x : ℚ) (h0 : 0 ≤ x) (h1 : x ≤ 100) :
    roundToTwoDecimals x ≤ 100 := by
  unfold roundToTwoDecimals goMathRound
  rw [if_pos (by linarith : (0:ℚ) ≤ x * 100)]
  have hlt : ⌊x * 100 + 1/2⌋ < 10001 := Int.floor_lt.mpr (by push_cast; linarith)
  have hle : ⌊x * 100 + 1/2⌋ ≤ 10000 := by omega
  have hle2 : ((⌊x * 100 + 1/2⌋ : ℤ) : ℚ) ≤ 10000 := by exact_mod_cast hle
  rw [div_le_iff₀ (by norm_num : (0:ℚ) < 100)]
  linarith

theorem round2_42567 : roundToTwoDecimals (42.567 : ℚ) = 42.57 := by
  rw [roundToTwoDecimals_eq_of_floor (42.567 : ℚ) 4257 (by norm_num)
    (by norm_num [Int.floor_eq_iff])]
  norm_num

theorem round2_131 : roundToTwoDecimals (13.1 : ℚ) = 13.1 := by
  rw [roundToTwoDecimals_eq_of_floor (13.1 : ℚ) 1310 (by norm_num)
    (by norm_num [Int.floor_eq_iff])]
  norm_num

theorem round2_20 : roundToTwoDecimals (20 : ℚ) = 20 := by
  rw [roundToTwoDecimals_eq_of_floor (20 : ℚ) 2000 (by norm_num)
    (by norm_num [Int.floor_eq_iff])]
  norm_num

theorem round2_55 : roundToTwoDecimals (55 : ℚ) = 55 := by
  rw [roundToTwoDecimals_eq_of_floor (55 : ℚ) 5500 (by norm_num)
    (by norm_num [Int.floor_eq_iff])]
  norm_num

theorem round2_87 : roundToTwoDecimals (87 : ℚ) = 87 := by
  rw [roundToTwoDecimals_eq_of_floor (87 : ℚ) 8700 (by norm_num)
    (by norm_num [Int.floor_eq_iff])]
  norm_num

/-! ## Concrete `parseFloat` evaluations -/

theorem parseFloat_digits_only (s : String) (ds : List Char) (n : Nat)
    (h1 : parseFloatRep s.data = some ⟨false, ds, [], 0⟩) (h2 : digitsToNat ds = n) :
    parseFloat s = some ((n : ℚ)) := by
  rw [parseFloat, h1]
  simp [repToRat, h2, show digitsToNat ([] : List Char) = 0 from rfl]

theorem parseFloat_87 : parseFloat "87" = some 87 := by
  rw [parseFloat_digits_only "87" ['8', '7'] 87 (by decide) (by decide)]
  norm_num

theorem parseFloat_55 : parseFloat "55" = some 55 := by
  rw [parseFloat_digits_only "55" ['5', '5'] 55 (by decide) (by decide)]
  norm_num

theorem parseFloat_12 : parseFloat "12" = some 12 := by
  rw [parseFloat_digits_only "12" ['1', '2'] 12 (by decide) (by decide)]
  norm_num

theorem parseFloat_xx : parseFloat "xx" = none := by
  rw [parseFloat, show parseFloatRep "xx".data = none from by decide]
  rfl

/-! ## The zpool parser as a per-line filter -/

theorem parseZpoolLine_two (line a b : String) (hf : stringFields line = [a, b]) :
    parseZpoolLine line = (parseFloat (trimSuffix b "%")).map (fun v => (a, v)) := by
  unfold parseZpoolLine
  rw [hf]

theorem parseZpoolLine_not_two (line : String) (hf : (stringFields line).length ≠ 2) :
    parseZpoolLine line = none := by
  unfold parseZpoolLine
  rcases hsf : stringFields line with _ | ⟨a, _ | ⟨b, _ | ⟨c, t⟩⟩⟩
  · rfl
  · rfl
  · exact absurd (by simp [hsf]) hf
  · rfl

theorem zpoolLoop_eq_filterMap (l : List String) :
    zpoolLoop l = l.filterMap parseZpoolLine := by
  induction l with
  | nil => rfl
  | cons line rest ih =>
    rw [List.filterMap_cons]
    unfold zpoolLoop parseZpoolLine
    rcases hsf : stringFields line with _ | ⟨a, _ | ⟨b, _ | ⟨c, t⟩⟩⟩
    · exact ih
    · exact ih
    · cases hp : parseFloat (trimSuffix b "%") with
      | none => simpa [hp] using ih
      | some v => simpa [hp] using ih
    · exact ih

theorem parseZpoolLine_tank87tab : parseZpoolLine "tank\t87%" = some ("tank", (87:ℚ)) := by
  rw [parseZpoolLine_two "tank\t87%" "tank" "87%" (by decide),
    show trimSuffix "87%" "%" = "87" from by decide, parseFloat_87]
  rfl

theorem parseZpoolLine_tank87 : parseZpoolLine "tank 87" = some ("tank", (87:ℚ)) := by
  rw [parseZpoolLine_two "tank 87" "tank" "87" (by decide),
    show trimSuffix "87" "%" = "87" from by decide, parseFloat_87]
  rfl

theorem parseZpoolLine_tank55 : parseZpoolLine "tank 55%" = some ("tank", (55:ℚ)) := by
  rw [parseZpoolLine_two "tank 55%" "tank" "55%" (by decide),
    show trimSuffix "55%" "%" = "55" from by decide, parseFloat_55]
  rfl

theorem parseZpoolLine_backup12 : parseZpoolLine "backup 12%" = some ("backup", (12:ℚ)) := by
  rw [parseZpoolLine_two "backup 12%" "backup" "12%" (by decide),
    show trimSuffix "12%" "%" = "12" from by decide, parseFloat_12]
  rfl

theorem parseZpoolLine_backupxx : parseZpoolLine "backup xx%" = none := by
  rw [parseZpoolLine_two "backup xx%" "backup" "xx%" (by decide),
    show trimSuffix "xx%" "%" = "xx" from by decide, parseFloat_xx]
  rfl

theorem zpool_out_tank87tab : zpoolLoop (scanLines "tank\t87%") = [("tank", (87:ℚ))] := by
  rw [show scanLines "tank\t87%" = ["tank\t87%"] from by decide, zpoolLoop_eq_filterMap]
  simp [List.filterMap_cons, parseZpoolLine_tank87tab]

theorem zpool_out_tank87 : zpoolLoop (scanLines "tank 87") = [("tank", (87:ℚ))] := by
  rw [show scanLines "tank 87" = ["tank 87"] from by decide, zpoolLoop_eq_filterMap]
  simp [List.filterMap_cons, parseZpoolLine_tank87]

theorem zpool_out_continue : zpoolLoop (scanLines "tank 87\nbackup 12%") =
    [("tank", (87:ℚ)), ("backup", (12:ℚ))] := by
  rw [show scanLines "tank 87\nbackup 12%" = ["tank 87", "backup 12%"] from by decide,
    zpoolLoop_eq_filterMap]
  simp [List.filterMap_cons, parseZpoolLine_tank87, parseZpoolLine_backup12]

theorem zpool_out_c6 : zpoolLoop (scanLines "tank 55%\nbackup xx%") = [("tank", (55:ℚ))] := by
  rw [show scanLines "tank 55%\nbackup xx%" = ["tank 55%", "backup xx%"] from by decide,
    zpoolLoop_eq_filterMap]
  simp [List.filterMap_cons, parseZpoolLine_tank55, parseZpoolLine_backupxx]

/-! ## The log stream never mentions the CPU error outside the CPU block -/

theorem cpuErr_notin_fsLogs (u : String → Option ℚ) (l : List Partition) :
    LogTag.cpuErr ∉ fsLogs u l := by
  induction l with
  | nil => simp [fsLogs]
  | cons p t ih =>
    intro hmem
    unfold fsLogs at hmem
    split at hmem
    · exact ih hmem
    · split at hmem
      · rcases List.mem_cons.mp hmem with he | hm
        · simp at he
        · exact ih hm
      · exact ih hmem

theorem cpuErr_notin_zpoolLogs (l : List String) : LogTag.cpuErr ∉ zpoolLogs l := by
  induction l with
  | nil => simp [zpoolLogs]
  | cons line t ih =>
    intro hmem
    unfold zpoolLogs at hmem
    split at hmem
    · split at hmem
      · exact ih hmem
      · rcases List.mem_cons.mp hmem with he | hm
        · simp at he
        · exact ih hm
    · exact ih hmem

theorem cpuErr_notin_cycleLogs (inp : CycleInput) (hcpu : inp.cpuPercents = some []) :
    LogTag.cpuErr ∉ cycleLogs inp := by
  intro hmem
  unfold cycleLogs at hmem
  rw [hcpu] at hmem
  simp only [List.append_nil, List.nil_append, List.mem_append] at hmem
  rcases hmem with ((((h | h) | h) | h) | h)
  · revert h; cases inp.vmUsedPercent <;> simp
  · revert h; cases inp.swapUsedPercent <;> simp
  · revert h; cases inp.netIOStats <;> simp
  · revert h
    cases inp.partitions with
    | none => simp
    | some l => exact cpuErr_notin_fsLogs inp.diskUsage l
  · revert h
    cases inp.zpoolOut with
    | none => simp
    | some s => exact cpuErr_notin_zpoolLogs (scanLines s)

/-! ## Single-cycle behaviour, per sampler outcome -/

theorem lookupQ_nil {α : Type} [DecidableEq α] (k : α) :
    lookupQ k ([] : List (α × ℚ)) = none := rfl

theorem lookupQ_cons {α : Type} [DecidableEq α] (k : α) (e : α × ℚ) (rest : List (α × ℚ)) :
    lookupQ k (e :: rest) = if e.1 = k then some e.2 else lookupQ k rest := rfl

theorem cc_ram_fail (inp : CycleInput) (r : Registry) (h : inp.vmUsedPercent = none) :
    (collectCycle inp r).ram = r.ram := by
  rw [collectCycle_ram, h]
  rfl

theorem cc_ram_some (inp : CycleInput) (r : Registry) (x : ℚ)
    (h : inp.vmUsedPercent = some x) :
    (collectCycle inp r).ram = some (roundToTwoDecimals x) := by
  rw [collectCycle_ram, h]
  rfl

theorem cc_cpu_fail (inp : CycleInput) (r : Registry) (h : inp.cpuPercents = none) :
    (collectCycle inp r).cpu = r.cpu := by
  rw [collectCycle_cpu, h]
  show (applyRam inp.vmUsedPercent r).cpu = r.cpu
  rw [applyRam_cpu]

theorem cc_cpu_nil (inp : CycleInput) (r : Registry) (h : inp.cpuPercents = some []) :
    (collectCycle inp r).cpu = r.cpu := by
  rw [collectCycle_cpu, h]
  show (applyRam inp.vmUsedPercent r).cpu = r.cpu
  rw [applyRam_cpu]

theorem cc_cpu_cons (inp : CycleInput) (r : Registry) (p : ℚ) (t : List ℚ)
    (h : inp.cpuPercents = some (p :: t)) :
    (collectCycle inp r).cpu = some (roundToTwoDecimals p) := by
  rw [collectCycle_cpu, h]
  rfl

theorem cc_swap_fail (inp : CycleInput) (r : Registry) (h : inp.swapUsedPercent = none) :
    (collectCycle inp r).swap = r.swap := by
  rw [collectCycle_swap, h]
  show (applyCpu inp.cpuPercents (applyRam inp.vmUsedPercent r)).swap = r.swap
  rw [applyCpu_swap, applyRam_swap]

theorem cc_net_fail (inp : CycleInput) (r : Registry) (h : inp.netIOStats = none) :
    (collectCycle inp r).netSent = r.netSent ∧ (collectCycle inp r).netRecv = r.netRecv := by
  rw [collectCycle_netSent, collectCycle_netRecv, h]
  exact preNet_netMaps inp r

theorem cc_parts_fail (inp : CycleInput) (r : Registry) (h : inp.partitions = none) :
    (collectCycle inp r).fs = r.fs := by
  rw [collectCycle_fs, h]
  show (applyNet inp.netIOStats
    (applySwap inp.swapUsedPercent
      (applyCpu inp.cpuPercents (applyRam inp.vmUsedPercent r)))).fs = r.fs
  exact preFS_fs inp r

theorem cc_zpool_fail (inp : CycleInput) (r : Registry) (h : inp.zpoolOut = none) :
    (collectCycle inp r).zfs = r.zfs := by
  unfold collectCycle
  rw [h]
  show (applyFS inp.partitions inp.diskUsage
    (applyNet inp.netIOStats
      (applySwap inp.swapUsedPercent
        (applyCpu inp.cpuPercents (applyRam inp.vmUsedPercent r))))).zfs = r.zfs
  rw [applyFS_zfs, applyNet_zfs, applySwap_zfs, applyCpu_zfs, applyRam_zfs]

theorem cc_fs_lookup_skip (inp : CycleInput) (r : Registry) (d mp : String)
    (hcond : isExcludedMountPoint mp = true ∨ inp.diskUsage mp = none) :
    lookupQ (d, mp) (collectCycle inp r).fs = lookupQ (d, mp) r.fs := by
  rw [collectCycle_fs]
  cases hp : inp.partitions with
  | none =>
    show lookupQ (d, mp) (applyNet inp.netIOStats
      (applySwap inp.swapUsedPercent
        (applyCpu inp.cpuPercents (applyRam inp.vmUsedPercent r)))).fs = _
    rw [preFS_fs]
  | some l =>
    simp only [applyFS]
    rw [fsFold_lookup_skip inp.diskUsage d mp hcond l, preFS_fs]

theorem cc_net_not_ens (inp : CycleInput) (r : Registry) (name : String)
    (hn : strStartsWith name "ens" = false) :
    lookupQ name (collectCycle inp r).netSent = lookupQ name r.netSent ∧
    lookupQ name (collectCycle inp r).netRecv = lookupQ name r.netRecv := by
  rw [collectCycle_netSent, collectCycle_netRecv]
  cases hs : inp.netIOStats with
  | none =>
    show lookupQ name (applySwap inp.swapUsedPercent
        (applyCpu inp.cpuPercents (applyRam inp.vmUsedPercent r))).netSent = _ ∧
      lookupQ name (applySwap inp.swapUsedPercent
        (applyCpu inp.cpuPercents (applyRam inp.vmUsedPercent r))).netRecv = _
    rw [(preNet_netMaps inp r).1, (preNet_netMaps inp r).2]
    exact ⟨rfl, rfl⟩
  | some l =>
    simp only [applyNet]
    have hfold := netFold_lookup_not_ens hn l
      (applySwap inp.swapUsedPercent (applyCpu inp.cpuPercents (applyRam inp.vmUsedPercent r)))
    rw [hfold.1, hfold.2, (preNet_netMaps inp r).1, (preNet_netMaps inp r).2]
    exact ⟨rfl, rfl⟩

theorem cc_net_ens_isSome (inp : CycleInput) (r : Registry) (stats : List NetIOStat)
    (stat : NetIOStat) (hs : inp.netIOStats = some stats) (hmem : stat ∈ stats)
    (hp : strStartsWith stat.name "ens" = true) :
    (lookupQ stat.name (collectCycle inp r).netSent).isSome = true ∧
    (lookupQ stat.name (collectCycle inp r).netRecv).isSome = true := by
  rw [collectCycle_netSent, collectCycle_netRecv, hs]
  simp only [applyNet]
  exact netFold_mem_isSome stats _ stat hmem hp

theorem cc_net_unique (inp : CycleInput) (r : Registry) (stats : List NetIOStat)
    (stat : NetIOStat) (hs : inp.netIOStats = some stats) (hmem : stat ∈ stats)
    (hp : strStartsWith stat.name "ens" = true)
    (huniq : ∀ s₂ ∈ stats, s₂.name = stat.name → s₂ = stat) :
    lookupQ stat.name (collectCycle inp r).netSent = some ((stat.bytesSent : ℚ)) ∧
    lookupQ stat.name (collectCycle inp r).netRecv = some ((stat.bytesRecv : ℚ)) := by
  rw [collectCycle_netSent, collectCycle_netRecv, hs]
  simp only [applyNet]
  exact netFold_unique_val stats _ stat hp huniq (Or.inl hmem)

/-! ## Invariants preserved across arbitrarily many cycles -/

theorem runCycles_excluded_none (d mp : String) (hex : isExcludedMountPoint mp = true)
    (inps : List CycleInput) : ∀ r : Registry,
    lookupQ (d, mp) r.fs = none → lookupQ (d, mp) (runCycles inps r).fs = none := by
  induction inps with
  | nil => intro r h; exact h
  | cons i t ih =>
    intro r h
    simp only [runCycles, List.foldl_cons] at *
    exact ih _ ((cc_fs_lookup_skip i r d mp (Or.inl hex)).trans h)

theorem runCycles_not_ens_none (name : String) (hn : strStartsWith name "ens" = false)
    (inps : List CycleInput) : ∀ r : Registry,
    (lookupQ name r.netSent = none ∧ lookupQ name r.netRecv = none) →
    lookupQ name (runCycles inps r).netSent = none ∧
    lookupQ name (runCycles inps r).netRecv = none := by
  induction inps with
  | nil => intro r h; exact h
  | cons i t ih =>
    intro r h
    simp only [runCycles, List.foldl_cons] at *
    exact ih _ ⟨((cc_net_not_ens i r name hn).1).trans h.1,
      ((cc_net_not_ens i r name hn).2).trans h.2⟩

/-! ## The concrete two-cycle memory/CPU scenario -/

/-- First scenario cycle: memory samples 42.567, CPU samples 13.1, every
other source fails. -/
def scenarioInput1 : CycleInput :=
  { vmUsedPercent := some 42.567, cpuPercents := some [13.1], swapUsedPercent := none,
    netIOStats := none, partitions := none, diskUsage := fun _ => none, zpoolOut := none }

/-- Second scenario cycle: the memory query fails, CPU samples 20.0. -/
def scenarioInput2 : CycleInput :=
  { vmUsedPercent := none, cpuPercents := some [20], swapUsedPercent := none,
    netIOStats := none, partitions := none, diskUsage := fun _ => none, zpoolOut := none }

theorem scenario_r1_ram : (collectCycle scenarioInput1 emptyRegistry).ram = some 42.57 := by
  rw [cc_ram_some scenarioInput1 emptyRegistry 42.567 rfl, round2_42567]

theorem scenario_r1_cpu : (collectCycle scenarioInput1 emptyRegistry).cpu = some 13.1 := by
  rw [cc_cpu_cons scenarioInput1 emptyRegistry 13.1 [] rfl, round2_131]

theorem scenario_r2_ram :
    (collectCycle scenarioInput2 (collectCycle scenarioInput1 emptyRegistry)).ram =
      some 42.57 := by
  rw [cc_ram_fail scenarioInput2 _ rfl, scenario_r1_ram]

theorem scenario_r2_cpu :
    (collectCycle scenarioInput2 (collectCycle scenarioInput1 emptyRegistry)).cpu =
      some 20 := by
  rw [cc_cpu_cons scenarioInput2 _ 20 [] rfl, round2_20]

/-! ## The concrete one-valid-one-malformed zpool scenario -/

/-- A cycle where only the zpool command succeeds, with one valid and one
malformed output line. -/
def zfsInput : CycleInput :=
  { vmUsedPercent := none, cpuPercents := none, swapUsedPercent := none, netIOStats := none,
    partitions := none, diskUsage := fun _ => none,
    zpoolOut := some "tank 55%\nbackup xx%" }

theorem c6_zfs_eval :
    (collectCycle zfsInput emptyRegistry).zfs = [("tank", roundToTwoDecimals 55)] := by
  show (applyZfs (some "tank 55%\nbackup xx%") emptyRegistry).zfs = _
  simp only [applyZfs]
  rw [zpool_out_c6]
  rfl

theorem c6_tank : lookupQ "tank" (collectCycle zfsInput emptyRegistry).zfs = some 55 := by
  rw [c6_zfs_eval, lookupQ_cons, if_pos (by decide), round2_55]

theorem c6_backup : lookupQ "backup" (collectCycle zfsInput emptyRegistry).zfs = none := by
  rw [c6_zfs_eval, lookupQ_cons, if_neg (by decide), lookupQ_nil]

/-! ## Concrete cycle inputs used by witnesses -/

/-- A cycle in which every sampler fails. -/
def failInput : CycleInput :=
  { vmUsedPercent := none, cpuPercents := none, swapUsedPercent := none, netIOStats := none,
    partitions := none, diskUsage := fun _ => none, zpoolOut := none }

/-- A cycle observing one excluded mount point with a succeeding usage query. -/
def bootInput : CycleInput :=
  { vmUsedPercent := none, cpuPercents := none, swapUsedPercent := none, netIOStats := none,
    partitions := some [⟨"/dev/sda1", "/boot/efi"⟩], diskUsage := fun _ => some 50,
    zpoolOut := none }

/-- A cycle observing one physical and one loopback interface. -/
def netInput : CycleInput :=
  { vmUsedPercent := none, cpuPercents := none, swapUsedPercent := none,
    netIOStats := some [⟨"ens5", 1000, 2000⟩, ⟨"lo", 7, 8⟩],
    partitions := none, diskUsage := fun _ => none, zpoolOut := none }

/-- A cycle whose CPU query succeeds with an empty percentage list. -/
def cpuEmptyInput : CycleInput :=
  { vmUsedPercent := none, cpuPercents := some [], swapUsedPercent := none, netIOStats := none,
    partitions := none, diskUsage := fun _ => none, zpoolOut := none }

/-! ## Claims -/

/-- Claim C1, amended.  A line of pool-capacity output yields one
(pool, value) entry exactly when it splits into two whitespace-separated
fields whose second field, after removing an optional `%` suffix, parses
as a number; `"tank\t87%"` yields `("tank", 87)`.  Contrary to the
original claim, `"tank 87"` (missing `%`) also yields `("tank", 87)`:
`TrimSuffix` leaves the field unchanged and `"87"` parses, so the entry is
published rather than skipped.  Lines that do fail are skipped and
parsing of subsequent lines continues. -/
theorem C1_zpool_line_parse :
    (∀ line a b : String, stringFields line = [a, b] →
      parseZpoolLine line = (parseFloat (trimSuffix b "%")).map (fun v => (a, v)))
    ∧ (∀ line : String, (stringFields line).length ≠ 2 → parseZpoolLine line = none)
    ∧ zpoolLoop (scanLines "tank\t87%") = [("tank", (87:ℚ))]
    ∧ zpoolLoop (scanLines "tank 87") = [("tank", (87:ℚ))]
    ∧ zpoolLoop (scanLines "tank 87\nbackup 12%") = [("tank", (87:ℚ)), ("backup", (12:ℚ))] :=
  ⟨parseZpoolLine_two, parseZpoolLine_not_two, zpool_out_tank87tab, zpool_out_tank87,
   zpool_out_continue⟩

/-- Witness for C1: the per-line characterisation applied to concrete lines. -/
theorem C1_zpool_line_parse_witness :
    parseZpoolLine "a 5" = (parseFloat (trimSuffix "5" "%")).map (fun v => ("a", v))
    ∧ parseZpoolLine "justonefield" = none :=
  ⟨C1_zpool_line_parse.1 "a 5" "a" "5" (by decide),
   C1_zpool_line_parse.2.1 "justonefield" (by decide)⟩

/-- Counterexample to C1 as stated: the line `"tank 87"` does not yield
zero entries; it yields the entry `("tank", 87)`. -/
theorem C1_counterexample :
    zpoolLoop (scanLines "tank 87") = [("tank", (87:ℚ))]
    ∧ zpoolLoop (scanLines "tank 87") ≠ [] := by
  refine ⟨zpool_out_tank87, ?_⟩
  rw [zpool_out_tank87]
  simp

/-- Claim C2.  A sampler failure in a cycle leaves the previously
published value for that identity unchanged, for every metric family;
and the concrete two-cycle scenario: after ram 42.567 / cpu 13.1, a cycle
with the memory query failing and CPU succeeding at 20 leaves
`ram = 42.57` and sets `cpu = 20`. -/
theorem C2_last_known_good :
    (∀ (inp : CycleInput) (r : Registry), inp.vmUsedPercent = none →
      (collectCycle inp r).ram = r.ram)
    ∧ (∀ (inp : CycleInput) (r : Registry), inp.cpuPercents = none →
      (collectCycle inp r).cpu = r.cpu)
    ∧ (∀ (inp : CycleInput) (r : Registry), inp.swapUsedPercent = none →
      (collectCycle inp r).swap = r.swap)
    ∧ (∀ (inp : CycleInput) (r : Registry), inp.netIOStats = none →
      (collectCycle inp r).netSent = r.netSent ∧ (collectCycle inp r).netRecv = r.netRecv)
    ∧ (∀ (inp : CycleInput) (r : Registry), inp.partitions = none →
      (collectCycle inp r).fs = r.fs)
    ∧ (∀ (inp : CycleInput) (r : Registry), inp.zpoolOut = none →
      (collectCycle inp r).zfs = r.zfs)
    ∧ (∀ (inp : CycleInput) (r : Registry) (d mp : String), inp.diskUsage mp = none →
      lookupQ (d, mp) (collectCycle inp r).fs = lookupQ (d, mp) r.fs)
    ∧ ((collectCycle scenarioInput1 emptyRegistry).ram = some 42.57
       ∧ (collectCycle scenarioInput1 emptyRegistry).cpu = some 13.1)
    ∧ ((collectCycle scenarioInput2 (collectCycle scenarioInput1 emptyRegistry)).ram =
         some 42.57
       ∧ (collectCycle scenarioInput2 (collectCycle scenarioInput1 emptyRegistry)).cpu =
         some 20) :=
  ⟨cc_ram_fail, cc_cpu_fail, cc_swap_fail, cc_net_fail, cc_parts_fail, cc_zpool_fail,
   fun inp r d mp h => cc_fs_lookup_skip inp r d mp (Or.inr h),
   ⟨scenario_r1_ram, scenario_r1_cpu⟩, ⟨scenario_r2_ram, scenario_r2_cpu⟩⟩

/-- Witness for C2: a failing-memory cycle on a populated registry leaves
the ram gauge untouched. -/
theorem C2_last_known_good_witness :
    (collectCycle failInput (collectCycle scenarioInput1 emptyRegistry)).ram =
      (collectCycle scenarioInput1 emptyRegistry).ram :=
  C2_last_known_good.1 failInput (collectCycle scenarioInput1 emptyRegistry) rfl

/-- Claim C3.  A mount point matching one of the excluded path prefixes is
never written: one cycle leaves its series unchanged, and from the empty
registry no sequence of cycles ever creates it. -/
theorem C3_excluded_mounts_never_upserted :
    (∀ (inp : CycleInput) (r : Registry) (d mp : String), isExcludedMountPoint mp = true →
      lookupQ (d, mp) (collectCycle inp r).fs = lookupQ (d, mp) r.fs)
    ∧ (∀ (inps : List CycleInput) (d mp : String), isExcludedMountPoint mp = true →
      lookupQ (d, mp) (runCycles inps emptyRegistry).fs = none) :=
  ⟨fun inp r d mp hex => cc_fs_lookup_skip inp r d mp (Or.inl hex),
   fun inps d mp hex => runCycles_excluded_none d mp hex inps emptyRegistry rfl⟩

/-- Witness for C3: a cycle that sees a partition mounted at `/boot/efi`
with a succeeding usage query still publishes nothing for it. -/
theorem C3_excluded_mounts_witness :
    lookupQ ("/dev/sda1", "/boot/efi") (runCycles [bootInput] emptyRegistry).fs = none :=
  C3_excluded_mounts_never_upserted.2 [bootInput] "/dev/sda1" "/boot/efi" (by decide)

/-- Claim C4.  Percentage samples are stored as `round(x*100)/100`
(`math.Round` rounds half away from zero, which on the nonnegative inputs
of this program agrees with the claim's `round`), the stored value stays
inside `[0, 100]` when the raw value is, and the ram gauge stores exactly
`roundToTwoDecimals` of the raw sample. -/
theorem C4_rounding_contract :
    (∀ x : ℚ, 0 ≤ x → roundToTwoDecimals x = ((round (x * 100) : ℤ) : ℚ) / 100)
    ∧ (∀ x : ℚ, 0 ≤ x → x ≤ 100 →
      0 ≤ roundToTwoDecimals x ∧ roundToTwoDecimals x ≤ 100)
    ∧ (∀ (inp : CycleInput) (r : Registry) (x : ℚ), inp.vmUsedPercent = some x →
      (collectCycle inp r).ram = some (roundToTwoDecimals x)) :=
  ⟨roundToTwoDecimals_eq_round,
   fun x h0 h1 => ⟨roundToTwoDecimals_nonneg x h0, roundToTwoDecimals_le_100 x h0 h1⟩,
   cc_ram_some⟩

/-- Witness for C4 at the raw sample 42.567. -/
theorem C4_rounding_contract_witness :
    roundToTwoDecimals (42.567 : ℚ) = ((round ((42.567 : ℚ) * 100) : ℤ) : ℚ) / 100
    ∧ (0 ≤ roundToTwoDecimals (42.567 : ℚ) ∧ roundToTwoDecimals (42.567 : ℚ) ≤ 100)
    ∧ (collectCycle scenarioInput1 emptyRegistry).ram =
        some (roundToTwoDecimals 42.567) :=
  ⟨C4_rounding_contract.1 42.567 (by norm_num),
   C4_rounding_contract.2.1 42.567 (by norm_num) (by norm_num),
   C4_rounding_contract.2.2 scenarioInput1 emptyRegistry 42.567 rfl⟩

/-- Claim C5.  Network byte counters are published exactly for interfaces
whose name starts with `ens`: a non-matching name is never written (one
cycle leaves it unchanged; from the empty registry it never appears), and
every matching interface in a successful query is present after the
cycle. -/
theorem C5_interface_filter :
    (∀ (inp : CycleInput) (r : Registry) (name : String),
      strStartsWith name "ens" = false →
      lookupQ name (collectCycle inp r).netSent = lookupQ name r.netSent ∧
      lookupQ name (collectCycle inp r).netRecv = lookupQ name r.netRecv)
    ∧ (∀ (inps : List CycleInput) (name : String), strStartsWith name "ens" = false →
      lookupQ name (runCycles inps emptyRegistry).netSent = none ∧
      lookupQ name (runCycles inps emptyRegistry).netRecv = none)
    ∧ (∀ (inp : CycleInput) (r : Registry) (stats : List NetIOStat) (stat : NetIOStat),
      inp.netIOStats = some stats → stat ∈ stats → strStartsWith stat.name "ens" = true →
      (lookupQ stat.name (collectCycle inp r).netSent).isSome = true ∧
      (lookupQ stat.name (collectCycle inp r).netRecv).isSome = true) :=
  ⟨cc_net_not_ens,
   fun inps name hn => runCycles_not_ens_none name hn inps emptyRegistry ⟨rfl, rfl⟩,
   cc_net_ens_isSome⟩

/-- Witness for C5: the loopback interface stays unpublished while `ens5`
is published. -/
theorem C5_interface_filter_witness :
    (lookupQ "lo" (collectCycle netInput emptyRegistry).netSent =
       lookupQ "lo" emptyRegistry.netSent)
    ∧ (lookupQ "ens5" (collectCycle netInput emptyRegistry).netSent).isSome = true :=
  ⟨(C5_interface_filter.1 netInput emptyRegistry "lo" (by decide)).1,
   (C5_interface_filter.2.2 netInput emptyRegistry [⟨"ens5", 1000, 2000⟩, ⟨"lo", 7, 8⟩]
      ⟨"ens5", 1000, 2000⟩ rfl (List.mem_cons_self _ _) (by decide)).1⟩

/-- Claim C6.  Each malformed pool line is skipped individually: the
scanner loop equals a per-line `filterMap`, and the two-line output
`"tank 55%" / "backup xx%"` produces exactly the entry `("tank", 55)`;
after the cycle the registry holds `tank = 55` and nothing for `backup`. -/
theorem C6_malformed_line_skipped :
    (∀ lines : List String, zpoolLoop lines = lines.filterMap parseZpoolLine)
    ∧ zpoolLoop (scanLines "tank 55%\nbackup xx%") = [("tank", (55:ℚ))]
    ∧ lookupQ "tank" (collectCycle zfsInput emptyRegistry).zfs = some 55
    ∧ lookupQ "backup" (collectCycle zfsInput emptyRegistry).zfs = none :=
  ⟨zpoolLoop_eq_filterMap, zpool_out_c6, c6_tank, c6_backup⟩

/-- Claim C7, evaluated at the failing input.  In `CollectZFSMetrics`
(`src/main.go`, `src/unnamed/part_002`) a command error reaches `continue`
before `time.Sleep`, so that iteration does not sleep — contradicting the
claim that every iteration sleeps regardless of failure.  Successful
iterations do sleep, and the combined `CollectMetrics` loop of
`src/unnamed/part_001` sleeps on every path. -/
theorem C7_zfs_error_skips_sleep :
    (collectZFSIter none []).2 = false
    ∧ (∀ (out : String) (zfs : List (String × ℚ)), (collectZFSIter (some out) zfs).2 = true)
    ∧ (∀ (inp : CycleInput) (r : Registry), (collectMetricsIter inp r).2 = true) :=
  ⟨rfl, fun _ _ => rfl, fun _ _ => rfl⟩

/-- Claim C8.  No sampler outcome makes a collection iteration exit the
process; the only modelled fatal condition is a failed HTTP listener,
which exits with status 1 (non-zero). -/
theorem C8_no_fatal_sampler_errors :
    (∀ (inp : CycleInput) (r : Registry) (code : Nat),
      collectIter inp r ≠ StepResult.exits code)
    ∧ mainStartup false = some 1 ∧ (1 : Nat) ≠ 0 ∧ mainStartup true = none :=
  ⟨fun inp r code h => by simp [collectIter] at h, rfl, one_ne_zero, rfl⟩

/-- Claim C9.  A successful CPU query returning an empty list neither
updates the CPU gauge nor logs a CPU error; a nonempty list stores the
rounded head element (the embedding reads the head only inside the
nonempty branch, so the guarded index cannot fail). -/
theorem C9_cpu_empty_guard :
    (∀ (inp : CycleInput) (r : Registry), inp.cpuPercents = some [] →
      (collectCycle inp r).cpu = r.cpu ∧ LogTag.cpuErr ∉ cycleLogs inp)
    ∧ (∀ (inp : CycleInput) (r : Registry) (p : ℚ) (t : List ℚ),
      inp.cpuPercents = some (p :: t) →
      (collectCycle inp r).cpu = some (roundToTwoDecimals p)) :=
  ⟨fun inp r h => ⟨cc_cpu_nil inp r h, cpuErr_notin_cycleLogs inp h⟩, cc_cpu_cons⟩

/-- Witness for C9: an empty CPU result leaves the gauge alone and logs
nothing; the scenario cycle with CPU 20 stores its rounding. -/
theorem C9_cpu_empty_guard_witness :
    ((collectCycle cpuEmptyInput emptyRegistry).cpu = emptyRegistry.cpu
      ∧ LogTag.cpuErr ∉ cycleLogs cpuEmptyInput)
    ∧ (collectCycle scenarioInput2 emptyRegistry).cpu = some (roundToTwoDecimals 20) :=
  ⟨C9_cpu_empty_guard.1 cpuEmptyInput emptyRegistry rfl,
   C9_cpu_empty_guard.2 scenarioInput2 emptyRegistry 20 [] rfl⟩

/-- Claim C10.  For an interface passing the name filter (and named
uniquely in the query result), the published values are exactly the raw
byte counters cast to the numeric domain — no rounding or any other
transformation is applied. -/
theorem C10_net_raw_values :
    ∀ (inp : CycleInput) (r : Registry) (stats : List NetIOStat) (stat : NetIOStat),
      inp.netIOStats = some stats → stat ∈ stats →
      strStartsWith stat.name "ens" = true →
      (∀ s₂ ∈ stats, s₂.name = stat.name → s₂ = stat) →
      lookupQ stat.name (collectCycle inp r).netSent = some ((stat.bytesSent : ℚ)) ∧
      lookupQ stat.name (collectCycle inp r).netRecv = some ((stat.bytesRecv : ℚ)) :=
  cc_net_unique

/-- Witness for C10: `ens5` with counters 1000/2000 is stored exactly. -/
theorem C10_net_raw_values_witness :
    lookupQ "ens5" (collectCycle netInput emptyRegistry).netSent = some ((1000 : ℚ))
    ∧ lookupQ "ens5" (collectCycle netInput emptyRegistry).netRecv = some ((2000 : ℚ)) :=
  C10_net_raw_values netInput emptyRegistry [⟨"ens5", 1000, 2000⟩, ⟨"lo", 7, 8⟩]
    ⟨"ens5", 1000, 2000⟩ rfl (List.mem_cons_self _ _) (by decide) (by decide)

/-- Witness for C8: the all-failing cycle does not exit the process. -/
theorem C8_no_fatal_sampler_errors_witness :
    collectIter failInput emptyRegistry ≠ StepResult.exits 1 :=
  C8_no_fatal_sampler_errors.1 failInput emptyRegistry 1
